import Mathlib

/-!
Verification development for the protwis homology-modeling command
(build_gpcr/management/commands/build_homology_models.py).

The Python source is shallowly embedded over `List Char` (Python str),
association lists (Python OrderedDict, with in-place update on existing
keys), `Option` (caught exceptions / regex misses) and `Except Unit`
(uncaught exceptions such as KeyError and UnboundLocalError).
-/

namespace Protwis

set_option maxRecDepth 8000

/-- ASCII whitespace recognized by Python's int() stripping and the regex class \s. -/
def isSpaceCh (c : Char) : Bool :=
  c == ' ' || c == '\t' || c == '\n' || c == '\r' || c == '\x0b' || c == '\x0c'

/-- Decimal digit test (regex class \d, int() digits). -/
def isDigitCh (c : Char) : Bool :=
  '0' ≤ c && c ≤ '9'

/-- The character of a single decimal digit. -/
def digitCh (n : Nat) : Char := Char.ofNat (48 + n)

/-- Fuel-driven decimal rendering of a natural number (most significant digit first). -/
def natDigitsAux : Nat → Nat → List Char
  | 0, _ => []
  | fuel + 1, n =>
    if n < 10 then [digitCh n]
    else natDigitsAux fuel (n / 10) ++ [digitCh (n % 10)]

/-- Python str() of a nonnegative int. -/
def pyStrNat (n : Nat) : List Char := natDigitsAux (n + 1) n

/-- Python str() of an int. -/
def pyStrInt : Int → List Char
  | Int.ofNat n => pyStrNat n
  | Int.negSucc n => '-' :: pyStrNat (n + 1)

/-- Value of a nonempty all-digit string (auxiliary accumulator form). -/
def digitsValAux : List Char → Nat → Option Nat
  | [], acc => some acc
  | c :: t, acc => if isDigitCh c then digitsValAux t (acc * 10 + (c.toNat - 48)) else none

/-- Value of a nonempty all-digit string; none otherwise. -/
def digitsVal : List Char → Option Nat
  | [] => none
  | l => digitsValAux l 0

/-- Strip surrounding whitespace, as Python's int() does before parsing. -/
def pyStrip (s : List Char) : List Char :=
  ((s.dropWhile isSpaceCh).reverse.dropWhile isSpaceCh).reverse

/-- Python int(str): optional surrounding whitespace, optional single sign, decimal
digits; none models the ValueError raised on anything else. -/
def pyInt? (s : List Char) : Option Int :=
  match pyStrip s with
  | '-' :: ds => (digitsVal ds).map (fun n => -(n : Int))
  | '+' :: ds => (digitsVal ds).map (fun n => (n : Int))
  | ds => (digitsVal ds).map (fun n => (n : Int))

/-- Fuel-driven worker for Python str.split(sep) with a nonempty separator: split on each
left-to-right non-overlapping occurrence of sep. The fuel is the input length, which
suffices because every step consumes at least one character. -/
def pySplitAux (sep : List Char) : Nat → List Char → List (List Char)
  | _, [] => [[]]
  | 0, s => [s]
  | fuel + 1, c :: rest =>
    if sep.isPrefixOf (c :: rest) then
      [] :: pySplitAux sep fuel ((c :: rest).drop sep.length)
    else
      match pySplitAux sep fuel rest with
      | [] => [[c]]
      | h :: t => (c :: h) :: t

/-- Python str.split(sep) for a nonempty separator. -/
def pySplit (s sep : List Char) : List (List Char) := pySplitAux sep s.length s

/-- GPCRDBParsingPDB.gn_num_extract: split the generic number on the delimiter and int()
the first two pieces; any exception (ValueError from int(), IndexError when the split is
too short, ValueError from an empty separator) is caught and yields the sentinel pair,
modelled as none. -/
def gn_num_extract (gn delimiter : List Char) : Option (Int × Int) :=
  if delimiter.isEmpty then none
  else
    match pySplit gn delimiter with
    | a :: b :: _ =>
      match pyInt? a, pyInt? b with
      | some x, some y => some (x, y)
      | _, _ => none
    | _ => none

/-- GPCRDBParsingPDB.gn_indecer: step a generic number by direction positions. A 2-digit
position is stepped directly; for a 3-digit (bulge) position a backward direction is first
incremented by one and applied to the 2-digit anchor int(str(position)[:2]); every other
shape returns the sentinel. The inner int(str(position)[:2]) cannot fail on a length-3
rendering of an int, so that unreachable parse failure is mapped to the sentinel. -/
def gn_indecer (gn delimiter : List Char) (direction : Int) : List Char :=
  match gn_num_extract gn delimiter with
  | some (s, p) =>
    if (pyStrInt p).length = 2 then
      pyStrInt s ++ delimiter ++ pyStrInt (p + direction)
    else if (pyStrInt p).length = 3 then
      match pyInt? ((pyStrInt p).take 2) with
      | some anchor =>
        pyStrInt s ++ delimiter ++
          pyStrInt (anchor + (if direction < 0 then direction + 1 else direction))
      | none => ['/']
    else ['/']
  | none => ['/']

/-- The canonical rendering of a generic number: segment, delimiter, position. -/
def mkGn (s : Nat) (d : List Char) (p : Nat) : List Char :=
  pyStrNat s ++ d ++ pyStrNat p

/-- Python dict assignment d[k] = v on an insertion-ordered dict: update in place when the
key is already present, otherwise append at the end. -/
def odSet {α β : Type} [DecidableEq α] (d : List (α × β)) (k : α) (v : β) : List (α × β) :=
  if d.any (fun q => q.1 == k) then
    d.map (fun q => if q.1 = k then (k, v) else q)
  else d ++ [(k, v)]

/-- Python dict lookup d[k] as an Option (none models KeyError). -/
def odGet {α β : Type} [DecidableEq α] (k : α) : List (α × β) → Option β
  | [] => none
  | q :: t => if q.1 = k then some q.2 else odGet k t

/-- One aligned position of an AlignedSequence segment, the triple position[0]
(generic-number key), position[1] != False (assignment flag) and position[2]
(one-letter residue code, '-' for a structural gap, '_' for a too-short sequence). -/
structure APos where
  gn : List Char
  assigned : Bool
  code : Char
deriving DecidableEq

/-- The mutable state of HomologyModeling.run_main_alignment's merge loop:
reference_dict, template_dict, reference_string, template_string, matching_string. -/
structure MergeState where
  refD : List (List Char × Char)
  tempD : List (List Char × Char)
  refS : List Char
  tempS : List Char
  matchS : List Char
deriving DecidableEq

/-- The empty initial merge state. -/
def emptyMerge : MergeState := ⟨[], [], [], [], []⟩

/-- The per-position body of run_main_alignment's inner loop, following the Python
if/elif chain literally: (1) both assigned: equal generic numbers emit both codes and a
match character, unequal ones only print a diagnostic; (2) reference assigned only:
reference side always emitted, template side '-' or 'x' by the template code; (3)
reference holds '-', template assigned; (4) both codes '-'; any other combination falls
through with no update. -/
def mergePos (st : MergeState) (rp tp : APos) : MergeState :=
  if rp.assigned = true ∧ tp.assigned = true then
    if rp.gn = tp.gn then
      ⟨odSet st.refD rp.gn rp.code, odSet st.tempD tp.gn tp.code,
       st.refS ++ [rp.code], st.tempS ++ [tp.code],
       st.matchS ++ [if rp.code = tp.code then rp.code else '.']⟩
    else st
  else if rp.assigned = true ∧ tp.assigned = false then
    if tp.code = '-' then
      ⟨odSet st.refD rp.gn rp.code, odSet st.tempD tp.gn '-',
       st.refS ++ [rp.code], st.tempS ++ ['-'], st.matchS ++ ['-']⟩
    else if tp.code = '_' then
      ⟨odSet st.refD rp.gn rp.code, odSet st.tempD tp.gn 'x',
       st.refS ++ [rp.code], st.tempS ++ ['x'], st.matchS ++ ['x']⟩
    else
      ⟨odSet st.refD rp.gn rp.code, st.tempD, st.refS ++ [rp.code], st.tempS, st.matchS⟩
  else if rp.code = '-' ∧ tp.assigned = true then
    ⟨odSet st.refD rp.gn '-', odSet st.tempD tp.gn tp.code,
     st.refS ++ ['-'], st.tempS ++ [tp.code], st.matchS ++ ['-']⟩
  else if rp.code = '-' ∧ tp.code = '-' then
    ⟨odSet st.refD rp.gn '-', odSet st.tempD tp.gn '-',
     st.refS ++ ['-'], st.tempS ++ ['-'], st.matchS ++ ['-']⟩
  else st

/-- Fold of mergePos over the zipped positions of one segment pair. -/
def mergeSeg (st : MergeState) : List (APos × APos) → MergeState
  | [] => st
  | pq :: rest => mergeSeg (mergePos st pq.1 pq.2) rest

/-- The "TM<n>_end" segment-boundary key. -/
def tmEnd (n : Nat) : List Char := ['T', 'M'] ++ pyStrNat n ++ ['_', 'e', 'n', 'd']

/-- The per-segment epilogue: append the boundary marker '/' to both dicts under the
"TM<n>_end" key and to all three strings. -/
def segEnd (st : MergeState) (n : Nat) : MergeState :=
  ⟨odSet st.refD (tmEnd n) '/', odSet st.tempD (tmEnd n) '/',
   st.refS ++ ['/'], st.tempS ++ ['/'], st.matchS ++ ['/']⟩

/-- Fold over the zipped segment pairs, threading the segment counter. -/
def mergeSegs (st : MergeState) (cnt : Nat) : List (List APos × List APos) → MergeState
  | [] => st
  | seg :: rest => mergeSegs (segEnd (mergeSeg st (List.zip seg.1 seg.2)) (cnt + 1)) (cnt + 1) rest

/-- HomologyModeling.run_main_alignment's merge of the two aligned sequences
(a.proteins[0].alignment and a.proteins[1].alignment, produced by the external alignment
engine). Returns the final merge state; its refD, tempD and matchS fields are the
reference_dict, template_dict and matching_string packed into the returned
AlignedReferenceAndTemplate, while refS and tempS are the two local alignment strings
also built by the loop. -/
def run_main_alignment (ref temp : List (List APos)) : MergeState :=
  mergeSegs emptyMerge 0 (List.zip ref temp)

/-- The external aligner's output contract for a position: an unassigned position carries
a structural gap '-' or a too-short marker '_'. -/
def posContract (q : APos) : Prop := q.assigned = false → q.code = '-' ∨ q.code = '_'

instance (q : APos) : Decidable (posContract q) := by
  unfold posContract
  infer_instance

/-- Stable insertion into a descending-by-score list: the new element goes after every
strictly greater score and before the first equal-or-smaller one. -/
def insertDescBy {α : Type} (score : α → Int) (a : α) : List α → List α
  | [] => [a]
  | b :: t => if score a < score b then b :: insertDescBy score a t else a :: b :: t

/-- Python sorted(key=score, reverse=True): stable descending sort. (Stable sorts under a
total preorder are extensionally unique, so this insertion formulation is the embedding
of Python's stable sort.) -/
def pySortDesc {α : Type} (score : α → Int) : List α → List α
  | [] => []
  | a :: t => insertDescBy score a (pySortDesc score t)

/-- HomologyModeling.create_ordered_similarity_table. The external collaborators are
passed in: sims lists the non-reference proteins with their int(similarity) scores in the
order the scores were computed (alignment_all.proteins[1:]), and structOf maps each
protein to its single retained best-resolution structure (the first row of the filtered
QuerySet). The scored list is sorted stably by score descending and the ordered dict
structure -> score is built in that order. -/
def create_ordered_similarity_table (sims : List (Nat × Int)) (structOf : Nat → Nat) :
    List (Nat × Int) :=
  (pySortDesc (fun q => q.2) sims).foldl (fun d q => odSet d (structOf q.1) q.2) []

/-- A key of the residue-indexed StructureArray: a raw residue number (Python int) or a
generic-number string; Python int and str keys never compare equal. -/
inductive PKey
  | num (n : Int)
  | str (s : List Char)
deriving DecidableEq

/-- A ResidueAtomBlock: atom name -> raw coordinate record line. -/
abbrev Block := List (List Char × List Char)

/-- Python gn.replace('x','.') for the single-character pattern. -/
def replaceXDot (s : List Char) : List Char :=
  s.map (fun c => if c = 'x' then '.' else c)

/-- The loop of fetch_lines_from_pdb: output[gn.replace('x','.')] =
pdb_array[gn.replace('x','.')]; a missing key raises KeyError (Except.error). -/
def fetchLoop (arr : List (PKey × Block)) :
    List (List Char) → List (List Char × Block) → Except Unit (List (List Char × Block))
  | [], out => Except.ok out
  | gn :: rest, out =>
    match odGet (PKey.str (replaceXDot gn)) arr with
    | none => Except.error ()
    | some v => fetchLoop arr rest (odSet out (replaceXDot gn) v)

/-- GPCRDBParsingPDB.fetch_lines_from_pdb over the parsed coordinate array (the output of
pdb_array_creator on the structure's coordinate file, which this embedding takes as
input since reading the file is I/O). -/
def fetch_lines_from_pdb (arr : List (PKey × Block)) (generic_numbers : List (List Char)) :
    Except Unit (List (List Char × Block)) :=
  fetchLoop arr generic_numbers []

/-- Regex fragments needed by the CA-record pattern of pdb_array_creator. -/
inductive RE
  | lit (s : List Char)
  | cls (p : Char → Bool)
  | rep (p : Char → Bool) (n : Nat)
  | star (p : Char → Bool)
  | plus (p : Char → Bool)
  | grp (n : Nat) (rs : List RE)

/-- Captured groups of a regex match. -/
abbrev Caps := List (Nat × List Char)

/-- Length of the longest prefix satisfying p. -/
def countWhile (p : Char → Bool) (s : List Char) : Nat := (s.takeWhile p).length

/-- Greedy quantifier driver: try consuming i characters for i from the longest class
prefix down to lo, first success wins (backtracking order of a greedy regex engine). -/
def tryGreedy (k : List Char → Option Caps) (s : List Char) (lo : Nat) : Nat → Option Caps
  | 0 => if lo = 0 then k s else none
  | i + 1 =>
    if i + 1 < lo then none
    else
      match k (s.drop (i + 1)) with
      | some r => some r
      | none => tryGreedy k s lo i

/-- Backtracking matcher for a sequence of regex fragments, in continuation-passing style
(the continuation receives the unconsumed suffix); anchored at the start as re.match is.
The fuel bounds the pattern-structure recursion depth only and any value beyond the
pattern length is enough. -/
def reMatchList : Nat → List RE → List Char → (List Char → Option Caps) → Option Caps
  | 0, _, _, _ => none
  | _ + 1, [], s, k => k s
  | fuel + 1, r :: rs, s, k =>
    match r with
    | RE.lit l => if l.isPrefixOf s then reMatchList fuel rs (s.drop l.length) k else none
    | RE.cls p =>
      match s with
      | [] => none
      | c :: t => if p c then reMatchList fuel rs t k else none
    | RE.rep p n =>
      if n ≤ s.length ∧ (s.take n).all p then reMatchList fuel rs (s.drop n) k else none
    | RE.star p => tryGreedy (fun t => reMatchList fuel rs t k) s 0 (countWhile p s)
    | RE.plus p => tryGreedy (fun t => reMatchList fuel rs t k) s 1 (countWhile p s)
    | RE.grp n inner =>
      reMatchList fuel inner s (fun t =>
        (reMatchList fuel rs t k).map (fun caps => (n, s.take (s.length - t.length)) :: caps))

/-- The regex class [0-9\s.-]. -/
def gnFieldCls (c : Char) : Bool := isDigitCh c || isSpaceCh c || c == '.' || c == '-'

/-- The regex class . (any character but a newline). -/
def anyCls (c : Char) : Bool := c ≠ '\n'

/-- The non-whitespace class \S. -/
def nonSpaceCh (c : Char) : Bool := !isSpaceCh c

/-- The CA-record pattern of pdb_array_creator's post-processing pass:
(ATOM\s+\d+\s+)(CA)(\s+)(\S{3})(\s+\S\s*)([0-9\s.-]+)(\d.\d{2}\s+)(-*\d.\d{2})(\s+\S). -/
def caPattern : List RE :=
  [RE.grp 1 [RE.lit ['A', 'T', 'O', 'M'], RE.plus isSpaceCh, RE.plus isDigitCh, RE.plus isSpaceCh],
   RE.grp 2 [RE.lit ['C', 'A']],
   RE.grp 3 [RE.plus isSpaceCh],
   RE.grp 4 [RE.rep nonSpaceCh 3],
   RE.grp 5 [RE.plus isSpaceCh, RE.cls nonSpaceCh, RE.star isSpaceCh],
   RE.grp 6 [RE.plus gnFieldCls],
   RE.grp 7 [RE.cls isDigitCh, RE.cls anyCls, RE.rep isDigitCh 2, RE.plus isSpaceCh],
   RE.grp 8 [RE.star (fun c => c == '-'), RE.cls isDigitCh, RE.cls anyCls, RE.rep isDigitCh 2],
   RE.grp 9 [RE.plus isSpaceCh, RE.cls nonSpaceCh]]

/-- re.match of the CA-record pattern, projected to group(8) (the signed two-decimal
generic-number fragment); none models a failed match. -/
def caMatch (line : List Char) : Option (List Char) :=
  match reMatchList 64 caPattern line (fun _ => some []) with
  | none => none
  | some caps => odGet 8 caps

/-- The output key the post-processing pass computes for one residue entry ("if
value['CA'] and res:"): the bulge key group(8)[1:] + "1" for a minus-signed fragment, the
fragment itself otherwise, and the original residue key when the CA line is empty (falsy)
or the pattern does not match. (When the block has no CA entry at all the pass raises
instead of reaching this computation; this helper then returns the original key and is
only used under a has-CA hypothesis.) -/
def postKey (key : PKey) (value : Block) : PKey :=
  match odGet (['C', 'A']) value with
  | none => key
  | some caLine =>
    match caMatch caLine with
    | none => key
    | some g8 =>
      if caLine.isEmpty then key
      else
        match g8 with
        | '-' :: tl => PKey.str (tl ++ ['1'])
        | g => PKey.str g

/-- The post-processing loop of pdb_array_creator: for each residue of the first-pass
array, re-key its atom block under postKey (the generic-number fragment of its CA record,
with the minus-signed bulge rewriting and the fallback to the original key); value['CA']
on a block with no CA atom raises KeyError (Except.error). -/
def postLoop : List (PKey × Block) → List (PKey × Block) → Except Unit (List (PKey × Block))
  | [], out => Except.ok out
  | (key, value) :: rest, out =>
    match odGet (['C', 'A']) value with
    | none => Except.error ()
    | some _ => postLoop rest (odSet out (postKey key value) value)

/-- The post-processing pass of GPCRDBParsingPDB.pdb_array_creator (source lines 484-497).
The first pass (lines 457-482), which builds the residue-number-keyed array from the
coordinate file's text lines, is modelled as this function's input. -/
def pdb_array_post (arr : List (PKey × Block)) : Except Unit (List (PKey × Block)) :=
  postLoop arr []

/-- The probing loop of Bulges.bulge_in_reference over the filtered candidate structures:
fetch each candidate's five-position window; on the first success bind alt_bulge and set
self.template to the candidate, on each failure set self.template to None and continue.
Returns the final binding of alt_bulge (none = never bound) and of self.template
(none = never assigned). -/
def probeLoop (fetch : Nat → Option (List (List Char × Block))) :
    List Nat → Option (Option Nat) →
    Option (List (List Char × Block)) × Option (Option Nat)
  | [], tmpl => (none, tmpl)
  | t :: rest, _tmpl =>
    match fetch t with
    | some w => (some w, some (some t))
    | none => probeLoop fetch rest (some none)

/-- Bulges.bulge_in_reference. The external collaborators are passed in: the similarity
table as structure ids with scores in rank order, the protein ids of
Residue.objects.filter(generic_number__label=gn) in query order, the structure-to-parent
map, and the window fetch (fetch_lines_from_pdb on the candidate's coordinate file and
preferred chain; none models any exception raised inside the try, such as the KeyError
of a missing window position or a missing file). Returns the Python return value, where
Except.error models the UnboundLocalError raised at the final truthiness test of
alt_bulge when no fetch ever succeeded, paired with the final state of self.template
(none when the attribute was never assigned). -/
def bulge_in_reference (gn : List Char) (similarity_table : List (Nat × Int))
    (matchProteins : List Nat) (parentOf : Nat → Nat)
    (fetch : Nat → List (List Char) → Option (List (List Char × Block))) :
    Except Unit (Option (List (List Char × Block))) × Option (Option Nat) :=
  let bulge_templates :=
    similarity_table.foldl (fun acc q =>
      acc ++ (matchProteins.filter (fun m => m == parentOf q.1)).map (fun _ => q.1)) []
  let window := [gn_indecer gn (['x']) (-2), gn_indecer gn (['x']) (-1), gn,
                 gn_indecer gn (['x']) 1, gn_indecer gn (['x']) 2]
  match probeLoop (fun t => fetch t window) bulge_templates none with
  | (none, tmpl) => (Except.error (), tmpl)
  | (some w, tmpl) => (Except.ok (if w.isEmpty then none else some w), tmpl)

/-! ## Theorems -/

/-- Roundtrip of +1 then -1 for canonical 2-digit generic numbers whose incremented
position still has 2 digits, delimiter 'x': checked over all segments and positions. -/
theorem gn_roundtrip_x : ∀ s < 8, ∀ p < 99, 1 ≤ s → 10 ≤ p →
    gn_indecer (gn_indecer (mkGn s (['x']) p) (['x']) 1) (['x']) (-1) = mkGn s (['x']) p := by
  decide

/-- Roundtrip of +1 then -1 for canonical 2-digit generic numbers whose incremented
position still has 2 digits, delimiter '.': checked over all segments and positions. -/
theorem gn_roundtrip_dot : ∀ s < 8, ∀ p < 99, 1 ≤ s → 10 ≤ p →
    gn_indecer (gn_indecer (mkGn s (['.']) p) (['.']) 1) (['.']) (-1) = mkGn s (['.']) p := by
  decide

/-- C5 counterexample: the valid 2-digit generic number 1x99 does not survive the
+1 / -1 roundtrip: stepping forward renders the 3-digit position 100, which the
backward step treats as a bulge whose anchor is 10, yielding 1x10. -/
theorem C5_counterexample :
    gn_indecer (gn_indecer (['1', 'x', '9', '9']) (['x']) 1) (['x']) (-1) =
      ['1', 'x', '1', '0'] ∧
    gn_indecer (gn_indecer (['1', 'x', '9', '9']) (['x']) 1) (['x']) (-1) ≠
      ['1', 'x', '9', '9'] := by
  decide

/-- C5 (amended): for 2-digit generic numbers with segment 1-7 and position 10-98 (so
that the incremented position still has two digits) and the delimiters the code uses,
offsetting by +1 and then by -1 yields the original generic number. -/
theorem C5_amended_roundtrip (s p : Nat) (d : List Char)
    (hs1 : 1 ≤ s) (hs2 : s ≤ 7) (hp1 : 10 ≤ p) (hp2 : p ≤ 98)
    (hd : d = ['x'] ∨ d = ['.']) :
    gn_indecer (gn_indecer (mkGn s d p) d 1) d (-1) = mkGn s d p := by
  rcases hd with h | h
  · subst h
    exact gn_roundtrip_x s (by omega) p (by omega) hs1 hp1
  · subst h
    exact gn_roundtrip_dot s (by omega) p (by omega) hs1 hp1

/-- Witness for C5 (amended) at segment 3, position 50, delimiter 'x'. -/
theorem C5_amended_roundtrip_witness :
    (1 ≤ 3 ∧ 3 ≤ 7 ∧ 10 ≤ 50 ∧ 50 ≤ 98) ∧
    gn_indecer (gn_indecer (mkGn 3 (['x']) 50) (['x']) 1) (['x']) (-1) = mkGn 3 (['x']) 50 :=
  ⟨by decide,
   C5_amended_roundtrip 3 50 (['x']) (by decide) (by decide) (by decide) (by decide)
     (Or.inl rfl)⟩

/-- Decimal facts about 3-digit positions: the rendering has length 3 and its first two
characters parse back to the quotient by ten. -/
theorem threeDigit_facts : ∀ n < 1000, 100 ≤ n →
    (pyStrNat n).length = 3 ∧ pyInt? ((pyStrNat n).take 2) = some (Int.ofNat (n / 10)) := by
  decide

/-- C6: stepping a 3-digit (bulge) generic number backward by one lands exactly on its
anchor, the generic number whose position is the first two digits of the bulge position,
in the same segment (for any generic-number string and delimiter that parse). -/
theorem C6_bulge_backstep_anchor (gn d : List Char) (s p : Int)
    (h : gn_num_extract gn d = some (s, p)) (h1 : 100 ≤ p) (h2 : p ≤ 999) :
    gn_indecer gn d (-1) = pyStrInt s ++ d ++ pyStrInt (p / 10) := by
  obtain ⟨n, rfl⟩ : ∃ n : Nat, p = (n : Int) :=
    ⟨p.toNat, (Int.toNat_of_nonneg (by omega)).symm⟩
  have hn1 : 100 ≤ n := by omega
  have hn2 : n < 1000 := by omega
  obtain ⟨hlen, hanc⟩ := threeDigit_facts n hn2 hn1
  have hps : pyStrInt ((n : Nat) : Int) = pyStrNat n := rfl
  have hdiv : ((n : Nat) : Int) / 10 = ((n / 10 : Nat) : Int) := by omega
  simp only [gn_indecer, h, hps, hlen]
  norm_num
  rw [hanc]
  show pyStrInt s ++ (d ++ pyStrInt ((n / 10 : Nat) : Int)) =
    pyStrInt s ++ (d ++ pyStrInt (((n : Nat) : Int) / 10))
  rw [hdiv]

/-- Witness for C6 at the bulge generic number 1x411 with delimiter 'x'. -/
theorem C6_bulge_backstep_anchor_witness :
    (gn_num_extract (['1', 'x', '4', '1', '1']) (['x']) = some (1, 411) ∧
      (100 : Int) ≤ 411 ∧ (411 : Int) ≤ 999) ∧
    gn_indecer (['1', 'x', '4', '1', '1']) (['x']) (-1) =
      pyStrInt 1 ++ ['x'] ++ pyStrInt ((411 : Int) / 10) :=
  ⟨⟨by decide, by decide, by decide⟩,
   C6_bulge_backstep_anchor (['1', 'x', '4', '1', '1']) (['x']) 1 411 (by decide)
     (by decide) (by decide)⟩

/-- C10: when both pieces of a generic number parse as integers but the position renders
with fewer than 2 or more than 3 characters, gn_indecer returns the sentinel for every
direction. -/
theorem C10_outlength_sentinel (gn d : List Char) (direction : Int) (s p : Int)
    (h : gn_num_extract gn d = some (s, p))
    (h2 : (pyStrInt p).length ≠ 2) (h3 : (pyStrInt p).length ≠ 3) :
    gn_indecer gn d direction = ['/'] := by
  simp only [gn_indecer, h]
  rw [if_neg h2, if_neg h3]

/-- Witness for C10 at the 1-digit-position generic number 1x5 with direction +1. -/
theorem C10_outlength_sentinel_witness :
    (gn_num_extract (['1', 'x', '5']) (['x']) = some (1, 5) ∧
      (pyStrInt 5).length ≠ 2 ∧ (pyStrInt 5).length ≠ 3) ∧
    gn_indecer (['1', 'x', '5']) (['x']) 1 = ['/'] :=
  ⟨⟨by decide, by decide, by decide⟩,
   C10_outlength_sentinel (['1', 'x', '5']) (['x']) 1 1 5 (by decide) (by decide) (by decide)⟩

/-- The three alignment strings of a merge state have equal length. -/
def lockstep (st : MergeState) : Prop :=
  st.refS.length = st.matchS.length ∧ st.tempS.length = st.matchS.length

/-- One merge step keeps the three alignment strings in lockstep, provided the template
position obeys the aligner's contract (an unassigned position carries '-' or '_'). -/
theorem mergePos_lockstep (st : MergeState) (rp tp : APos) (h : posContract tp)
    (hst : lockstep st) : lockstep (mergePos st rp tp) := by
  obtain ⟨h1, h2⟩ := hst
  unfold mergePos
  split_ifs <;> simp_all [lockstep, posContract, List.length_append]

/-- mergeSeg keeps the alignment strings in lockstep. -/
theorem mergeSeg_lockstep :
    ∀ (l : List (APos × APos)) (st : MergeState), (∀ pq ∈ l, posContract pq.2) →
      lockstep st → lockstep (mergeSeg st l)
  | [], _, _, hst => hst
  | pq :: rest, st, h, hst =>
    mergeSeg_lockstep rest (mergePos st pq.1 pq.2)
      (fun q hq => h q (List.mem_cons_of_mem pq hq))
      (mergePos_lockstep st pq.1 pq.2 (h pq (List.mem_cons_self pq rest)) hst)

/-- The segment epilogue keeps the alignment strings in lockstep. -/
theorem segEnd_lockstep (st : MergeState) (n : Nat) (hst : lockstep st) :
    lockstep (segEnd st n) := by
  obtain ⟨h1, h2⟩ := hst
  simp_all [lockstep, segEnd, List.length_append]

/-- mergeSegs keeps the alignment strings in lockstep. -/
theorem mergeSegs_lockstep :
    ∀ (l : List (List APos × List APos)) (st : MergeState) (cnt : Nat),
      (∀ seg ∈ l, ∀ pq ∈ List.zip seg.1 seg.2, posContract pq.2) →
      lockstep st → lockstep (mergeSegs st cnt l)
  | [], _, _, _, hst => hst
  | seg :: rest, st, cnt, h, hst =>
    mergeSegs_lockstep rest _ (cnt + 1)
      (fun q hq => h q (List.mem_cons_of_mem seg hq))
      (segEnd_lockstep _ (cnt + 1)
        (mergeSeg_lockstep (List.zip seg.1 seg.2) st
          (fun pq hpq => h seg (List.mem_cons_self seg rest) pq hpq) hst))

/-- C1 counterexample: two unassigned reference gap positions share the position key '-',
so the reference mapping collapses them into one entry and its entry count (2, with the
segment-end key) falls short of the template mapping's (3) and the classification
string's length (3). -/
theorem C1_counterexample :
    (run_main_alignment ([[⟨['-'], false, '-'⟩, ⟨['-'], false, '-'⟩]])
        ([[⟨['1', 'x', '5', '0'], true, 'A'⟩, ⟨['1', 'x', '5', '1'], true, 'C'⟩]])).refD.length = 2 ∧
    (run_main_alignment ([[⟨['-'], false, '-'⟩, ⟨['-'], false, '-'⟩]])
        ([[⟨['1', 'x', '5', '0'], true, 'A'⟩, ⟨['1', 'x', '5', '1'], true, 'C'⟩]])).tempD.length = 3 ∧
    (run_main_alignment ([[⟨['-'], false, '-'⟩, ⟨['-'], false, '-'⟩]])
        ([[⟨['1', 'x', '5', '0'], true, 'A'⟩, ⟨['1', 'x', '5', '1'], true, 'C'⟩]])).matchS.length = 3 ∧
    ¬((run_main_alignment ([[⟨['-'], false, '-'⟩, ⟨['-'], false, '-'⟩]])
        ([[⟨['1', 'x', '5', '0'], true, 'A'⟩, ⟨['1', 'x', '5', '1'], true, 'C'⟩]])).refD.length =
      (run_main_alignment ([[⟨['-'], false, '-'⟩, ⟨['-'], false, '-'⟩]])
        ([[⟨['1', 'x', '5', '0'], true, 'A'⟩, ⟨['1', 'x', '5', '1'], true, 'C'⟩]])).tempD.length ∧
      (run_main_alignment ([[⟨['-'], false, '-'⟩, ⟨['-'], false, '-'⟩]])
        ([[⟨['1', 'x', '5', '0'], true, 'A'⟩, ⟨['1', 'x', '5', '1'], true, 'C'⟩]])).tempD.length =
      (run_main_alignment ([[⟨['-'], false, '-'⟩, ⟨['-'], false, '-'⟩]])
        ([[⟨['1', 'x', '5', '0'], true, 'A'⟩, ⟨['1', 'x', '5', '1'], true, 'C'⟩]])).matchS.length) := by
  decide

/-- C1 (amended): for every pair of aligned sequences whose template side obeys the
aligner's contract (unassigned positions carry '-' or '_'), the reference, template and
classification strings built by run_main_alignment all have equal length, segment-end
markers included; the two mappings' entry counts can be smaller when emitted position
keys repeat. -/
theorem C1_amended_string_lengths (ref temp : List (List APos))
    (h : ∀ seg ∈ temp, ∀ tp ∈ seg, posContract tp) :
    (run_main_alignment ref temp).refS.length = (run_main_alignment ref temp).matchS.length ∧
    (run_main_alignment ref temp).tempS.length = (run_main_alignment ref temp).matchS.length := by
  apply mergeSegs_lockstep
  · intro seg hseg pq hpq
    exact h seg.2 (List.of_mem_zip hseg).2 pq.2 (List.of_mem_zip hpq).2
  · exact ⟨rfl, rfl⟩

/-- Witness for C1 (amended) on a one-position alignment. -/
theorem C1_amended_string_lengths_witness :
    (∀ seg ∈ ([[⟨['1', 'x', '5', '0'], true, 'V'⟩]] : List (List APos)),
      ∀ tp ∈ seg, posContract tp) ∧
    ((run_main_alignment ([[⟨['1', 'x', '5', '0'], true, 'L'⟩]])
        ([[⟨['1', 'x', '5', '0'], true, 'V'⟩]])).refS.length =
      (run_main_alignment ([[⟨['1', 'x', '5', '0'], true, 'L'⟩]])
        ([[⟨['1', 'x', '5', '0'], true, 'V'⟩]])).matchS.length ∧
      (run_main_alignment ([[⟨['1', 'x', '5', '0'], true, 'L'⟩]])
        ([[⟨['1', 'x', '5', '0'], true, 'V'⟩]])).tempS.length =
      (run_main_alignment ([[⟨['1', 'x', '5', '0'], true, 'L'⟩]])
        ([[⟨['1', 'x', '5', '0'], true, 'V'⟩]])).matchS.length) :=
  ⟨by decide,
   C1_amended_string_lengths ([[⟨['1', 'x', '5', '0'], true, 'L'⟩]])
     ([[⟨['1', 'x', '5', '0'], true, 'V'⟩]]) (by decide)⟩

/-- C4 counterexample: a position where neither side is assigned, the reference code is
'-' but the template code is '_', contributes no classification character at all (the
one-position, one-segment run yields only the boundary marker), contradicting the
claimed '-' classification for every neither-side-assigned pair. -/
theorem C4_counterexample :
    (run_main_alignment ([[⟨['-'], false, '-'⟩]]) ([[⟨['-'], false, '_'⟩]])).matchS = ['/'] ∧
    (run_main_alignment ([[⟨['-'], false, '-'⟩]]) ([[⟨['-'], false, '_'⟩]])).matchS ≠
      ['-', '/'] := by
  decide

/-- C4 (amended): the per-position behaviour of the merge. Both sides assigned with
agreeing generic numbers emit both residue codes, classifying with the shared code on a
match and '.' otherwise; reference assigned with template unassigned emits '-' or 'x' on
the template side according to the template's '-'/'_' code, mirrored by the
classification; reference holding '-' against an assigned template classifies '-'; and
both sides unassigned classifies '-' only when both codes are '-' (an unassigned '_'
on either side contributes nothing). -/
theorem C4_amended_position_cases (st : MergeState) (rp tp : APos) :
    (rp.assigned = true → tp.assigned = true → rp.gn = tp.gn →
      mergePos st rp tp =
        ⟨odSet st.refD rp.gn rp.code, odSet st.tempD tp.gn tp.code,
         st.refS ++ [rp.code], st.tempS ++ [tp.code],
         st.matchS ++ [if rp.code = tp.code then rp.code else '.']⟩) ∧
    (rp.assigned = true → tp.assigned = false → tp.code = '-' →
      mergePos st rp tp =
        ⟨odSet st.refD rp.gn rp.code, odSet st.tempD tp.gn '-',
         st.refS ++ [rp.code], st.tempS ++ ['-'], st.matchS ++ ['-']⟩) ∧
    (rp.assigned = true → tp.assigned = false → tp.code = '_' →
      mergePos st rp tp =
        ⟨odSet st.refD rp.gn rp.code, odSet st.tempD tp.gn 'x',
         st.refS ++ [rp.code], st.tempS ++ ['x'], st.matchS ++ ['x']⟩) ∧
    (rp.assigned = false → rp.code = '-' → tp.assigned = true →
      mergePos st rp tp =
        ⟨odSet st.refD rp.gn '-', odSet st.tempD tp.gn tp.code,
         st.refS ++ ['-'], st.tempS ++ [tp.code], st.matchS ++ ['-']⟩) ∧
    (rp.assigned = false → tp.assigned = false → rp.code = '-' → tp.code = '-' →
      mergePos st rp tp =
        ⟨odSet st.refD rp.gn '-', odSet st.tempD tp.gn '-',
         st.refS ++ ['-'], st.tempS ++ ['-'], st.matchS ++ ['-']⟩) := by
  refine ⟨fun h1 h2 h3 => ?_, fun h1 h2 h3 => ?_, fun h1 h2 h3 => ?_,
    fun h1 h2 h3 => ?_, fun h1 h2 h3 h4 => ?_⟩ <;>
    simp [mergePos, h1, h2, h3]
  · simp [h4]

/-- Witness for C4 (amended), first case: both sides assigned 3x50 with codes L and V
yield L and V on the two sides and '.' in the classification. -/
theorem C4_amended_position_cases_witness :
    mergePos emptyMerge ⟨['3', 'x', '5', '0'], true, 'L'⟩ ⟨['3', 'x', '5', '0'], true, 'V'⟩ =
      ⟨[(['3', 'x', '5', '0'], 'L')], [(['3', 'x', '5', '0'], 'V')], ['L'], ['V'], ['.']⟩ :=
  (C4_amended_position_cases emptyMerge ⟨['3', 'x', '5', '0'], true, 'L'⟩
    ⟨['3', 'x', '5', '0'], true, 'V'⟩).1 rfl rfl rfl

/-- C9 counterexample: a position where both sides are assigned but the generic numbers
disagree (1x50 against 1x51) leaves the merged alignment exactly as if the position did
not exist — identical to the merge of empty segments — and no error value reaches the
caller (run_main_alignment returns an ordinary merge state; the source only prints a
diagnostic). -/
theorem C9_counterexample :
    run_main_alignment ([[⟨['1', 'x', '5', '0'], true, 'L'⟩]])
        ([[⟨['1', 'x', '5', '1'], true, 'V'⟩]]) =
      run_main_alignment ([[]]) ([[]]) ∧
    odGet (['1', 'x', '5', '0'])
      (run_main_alignment ([[⟨['1', 'x', '5', '0'], true, 'L'⟩]])
        ([[⟨['1', 'x', '5', '1'], true, 'V'⟩]])).refD = none := by
  decide

/-- C9 (amended): when both sides of a position are assigned but their generic numbers
disagree, the merge drops the position silently: the state is unchanged (the position
appears in neither mapping, nor in any of the three strings) and nothing is surfaced to
the caller beyond the printed diagnostic. -/
theorem C9_amended_silent_drop (st : MergeState) (rp tp : APos)
    (h1 : rp.assigned = true) (h2 : tp.assigned = true) (h3 : rp.gn ≠ tp.gn) :
    mergePos st rp tp = st := by
  simp [mergePos, h1, h2, h3]

/-- Witness for C9 (amended) at assigned positions 1x50 and 1x51. -/
theorem C9_amended_silent_drop_witness :
    ((⟨['1', 'x', '5', '0'], true, 'L'⟩ : APos).assigned = true ∧
      (⟨['1', 'x', '5', '1'], true, 'V'⟩ : APos).assigned = true ∧
      (⟨['1', 'x', '5', '0'], true, 'L'⟩ : APos).gn ≠ (⟨['1', 'x', '5', '1'], true, 'V'⟩ : APos).gn) ∧
    mergePos emptyMerge ⟨['1', 'x', '5', '0'], true, 'L'⟩ ⟨['1', 'x', '5', '1'], true, 'V'⟩ =
      emptyMerge :=
  ⟨⟨rfl, rfl, by decide⟩,
   C9_amended_silent_drop emptyMerge ⟨['1', 'x', '5', '0'], true, 'L'⟩
     ⟨['1', 'x', '5', '1'], true, 'V'⟩ rfl rfl (by decide)⟩

/-- C2: the code slip in Bulges.bulge_in_reference. With a ranked table whose sole
candidate's parent protein carries the bulge generic number but whose five-position
window fetch fails, alt_bulge is never bound, so the final truthiness test raises
UnboundLocalError (the Except.error outcome) instead of returning the unresolved value
None that the function's own else-branch shows was intended; self.template is left at
None. The same exception is raised when no candidate passes the residue filter at all,
with self.template then never assigned. -/
theorem C2_unbound_alt_bulge_on_total_failure :
    bulge_in_reference (['1', 'x', '4', '1', '1']) ([(5, 90)]) ([7]) (fun _ => 7)
      (fun _ _ => none) = (Except.error (), some none) ∧
    bulge_in_reference (['1', 'x', '4', '1', '1']) ([(5, 90)]) ([]) (fun _ => 7)
      (fun _ _ => none) = (Except.error (), none) := by
  constructor
  · rfl
  · rfl

/-- odSet on a fresh key appends the binding at the end. -/
theorem odSet_append {α β : Type} [DecidableEq α] (d : List (α × β)) (k : α) (v : β)
    (h : k ∉ d.map Prod.fst) : odSet d k v = d ++ [(k, v)] := by
  have hc : d.any (fun q => q.1 == k) = false := by
    rw [List.any_eq_false]
    intro q hq
    simp only [beq_iff_eq]
    intro hk
    exact h (List.mem_map.mpr ⟨q, hq, hk⟩)
  unfold odSet
  rw [hc]
  simp

/-- fetchLoop succeeds and appends the requested re-keyed blocks in request order when
every requested key is present, the re-keyed requests are distinct and fresh. -/
theorem fetchLoop_ok (arr : List (PKey × Block)) :
    ∀ (gns : List (List Char)) (out : List (List Char × Block)),
      (∀ gn ∈ gns, (odGet (PKey.str (replaceXDot gn)) arr).isSome = true) →
      List.Nodup (gns.map replaceXDot) →
      (∀ gn ∈ gns, replaceXDot gn ∉ out.map Prod.fst) →
      fetchLoop arr gns out =
        Except.ok (out ++ gns.map (fun gn =>
          (replaceXDot gn, (odGet (PKey.str (replaceXDot gn)) arr).getD [])))
  | [], out, _, _, _ => by simp [fetchLoop]
  | gn :: rest, out, hsome, hnd, hfresh => by
    obtain ⟨v, hv⟩ := Option.isSome_iff_exists.mp (hsome gn (List.mem_cons_self gn rest))
    have hnd' : replaceXDot gn ∉ List.map replaceXDot rest ∧
        (List.map replaceXDot rest).Nodup := by
      rw [List.map_cons, List.nodup_cons] at hnd
      exact hnd
    have hstep : fetchLoop arr (gn :: rest) out =
        fetchLoop arr rest (odSet out (replaceXDot gn) v) := by
      simp only [fetchLoop, hv]
    have hfreshset : odSet out (replaceXDot gn) v = out ++ [(replaceXDot gn, v)] :=
      odSet_append out (replaceXDot gn) v (hfresh gn (List.mem_cons_self gn rest))
    have hrest := fetchLoop_ok arr rest (out ++ [(replaceXDot gn, v)])
      (fun g hg => hsome g (List.mem_cons_of_mem gn hg))
      hnd'.2
      (by
        intro g hg
        simp only [List.map_append, List.map_cons, List.map_nil, List.mem_append,
          List.mem_singleton]
        rintro (hin | heq)
        · exact hfresh g (List.mem_cons_of_mem gn hg) hin
        · exact hnd'.1 (by
            rw [← heq]
            exact List.mem_map_of_mem replaceXDot hg))
    rw [hstep, hfreshset, hrest]
    simp [hv]

/-- fetchLoop raises KeyError as soon as some requested (re-keyed) generic number is
absent from the parsed array. -/
theorem fetchLoop_error (arr : List (PKey × Block)) :
    ∀ (gns : List (List Char)) (out : List (List Char × Block)),
      (∃ gn ∈ gns, odGet (PKey.str (replaceXDot gn)) arr = none) →
      fetchLoop arr gns out = Except.error ()
  | [], _, hex => by simp at hex
  | gn :: rest, out, hex => by
    cases hv : odGet (PKey.str (replaceXDot gn)) arr with
    | none =>
      simp only [fetchLoop, hv]
    | some v =>
      have hstep : fetchLoop arr (gn :: rest) out =
          fetchLoop arr rest (odSet out (replaceXDot gn) v) := by
        simp only [fetchLoop, hv]
      obtain ⟨g, hg, hnone⟩ := hex
      rcases List.mem_cons.mp hg with rfl | hgr
      · rw [hv] at hnone
        exact absurd hnone (by simp)
      · rw [hstep]
        exact fetchLoop_error arr rest _ ⟨g, hgr, hnone⟩

/-- C3 counterexample: requesting 1x50 and 1x51 from an array holding only the key 1.50
raises KeyError (Except.error) at the missing key instead of returning a result with
that key omitted. -/
theorem C3_counterexample :
    fetch_lines_from_pdb ([(PKey.str (['1', '.', '5', '0']), [(['N'], ['q'])])])
        ([['1', 'x', '5', '0'], ['1', 'x', '5', '1']]) = Except.error () ∧
    fetch_lines_from_pdb ([(PKey.str (['1', '.', '5', '0']), [(['N'], ['q'])])])
        ([['1', 'x', '5', '0'], ['1', 'x', '5', '1']]) ≠
      Except.ok ([((['1', '.', '5', '0']), [(['N'], ['q'])])]) := by
  have h1 : fetch_lines_from_pdb ([(PKey.str (['1', '.', '5', '0']), [(['N'], ['q'])])])
      ([['1', 'x', '5', '0'], ['1', 'x', '5', '1']]) = Except.error () := rfl
  refine ⟨h1, ?_⟩
  rw [h1]
  intro hcontra
  exact Except.noConfusion hcontra

/-- C3 (amended): when every requested generic number (after replacing 'x' by '.') is
present in the parsed array and the re-keyed requests are distinct, fetch_lines_from_pdb
returns them, re-keyed with the '.' delimiter, in request order; when any requested
generic number has no counterpart a KeyError propagates to the caller (Except.error),
which treats it as a soft miss — the key is not merely omitted. Only 'x' characters are
rewritten to '.'. -/
theorem C3_amended_fetch (arr : List (PKey × Block)) (gns : List (List Char)) :
    ((∀ gn ∈ gns, (odGet (PKey.str (replaceXDot gn)) arr).isSome = true) →
      List.Nodup (gns.map replaceXDot) →
      fetch_lines_from_pdb arr gns =
        Except.ok (gns.map (fun gn =>
          (replaceXDot gn, (odGet (PKey.str (replaceXDot gn)) arr).getD [])))) ∧
    ((∃ gn ∈ gns, odGet (PKey.str (replaceXDot gn)) arr = none) →
      fetch_lines_from_pdb arr gns = Except.error ()) := by
  constructor
  · intro hsome hnd
    have := fetchLoop_ok arr gns [] hsome hnd (by simp)
    simpa [fetch_lines_from_pdb] using this
  · intro hex
    exact fetchLoop_error arr gns [] hex

/-- Witness for C3 (amended), success half, on a two-residue array with both windows
present and requests using the 'x' delimiter. -/
theorem C3_amended_fetch_witness :
    ((∀ gn ∈ ([['1', 'x', '5', '0'], ['1', 'x', '5', '1']] : List (List Char)),
        (odGet (PKey.str (replaceXDot gn))
          ([(PKey.str (['1', '.', '5', '0']), [(['N'], ['q'])]),
            (PKey.str (['1', '.', '5', '1']), [(['N'], ['r'])])])).isSome = true) ∧
      List.Nodup (([['1', 'x', '5', '0'], ['1', 'x', '5', '1']] : List (List Char)).map replaceXDot)) ∧
    fetch_lines_from_pdb
        ([(PKey.str (['1', '.', '5', '0']), [(['N'], ['q'])]),
          (PKey.str (['1', '.', '5', '1']), [(['N'], ['r'])])])
        ([['1', 'x', '5', '0'], ['1', 'x', '5', '1']]) =
      Except.ok (([['1', 'x', '5', '0'], ['1', 'x', '5', '1']] : List (List Char)).map (fun gn =>
        (replaceXDot gn, (odGet (PKey.str (replaceXDot gn))
          ([(PKey.str (['1', '.', '5', '0']), [(['N'], ['q'])]),
            (PKey.str (['1', '.', '5', '1']), [(['N'], ['r'])])])).getD []))) :=
  ⟨⟨by decide, by decide⟩,
   (C3_amended_fetch
     ([(PKey.str (['1', '.', '5', '0']), [(['N'], ['q'])]),
       (PKey.str (['1', '.', '5', '1']), [(['N'], ['r'])])])
     ([['1', 'x', '5', '0'], ['1', 'x', '5', '1']])).1 (by decide) (by decide)⟩

/-- postLoop succeeds and appends the re-keyed residue blocks in array order when every
block has a CA record and the computed keys are distinct and fresh. -/
theorem postLoop_ok :
    ∀ (arr out : List (PKey × Block)),
      (∀ p ∈ arr, (odGet (['C', 'A']) p.2).isSome = true) →
      List.Nodup (arr.map (fun p => postKey p.1 p.2)) →
      (∀ p ∈ arr, postKey p.1 p.2 ∉ out.map Prod.fst) →
      postLoop arr out = Except.ok (out ++ arr.map (fun p => (postKey p.1 p.2, p.2)))
  | [], out, _, _, _ => by simp [postLoop]
  | (key, value) :: rest, out, hca, hnd, hfresh => by
    obtain ⟨ca, hc⟩ := Option.isSome_iff_exists.mp (hca (key, value) (List.mem_cons_self _ _))
    have hnd' : postKey key value ∉ rest.map (fun p => postKey p.1 p.2) ∧
        (rest.map (fun p => postKey p.1 p.2)).Nodup := by
      rw [List.map_cons, List.nodup_cons] at hnd
      exact hnd
    have hstep : postLoop ((key, value) :: rest) out =
        postLoop rest (odSet out (postKey key value) value) := by
      simp only [postLoop, hc]
    have hfreshset : odSet out (postKey key value) value =
        out ++ [(postKey key value, value)] :=
      odSet_append out _ value (hfresh (key, value) (List.mem_cons_self _ _))
    have hrest := postLoop_ok rest (out ++ [(postKey key value, value)])
      (fun p hp => hca p (List.mem_cons_of_mem _ hp))
      hnd'.2
      (by
        intro p hp
        simp only [List.map_append, List.map_cons, List.map_nil, List.mem_append,
          List.mem_singleton]
        rintro (hin | heq)
        · exact hfresh p (List.mem_cons_of_mem _ hp) hin
        · exact hnd'.1 (by
            rw [← heq]
            exact List.mem_map_of_mem _ hp))
    rw [hstep, hfreshset, hrest]
    simp

/-- C7 counterexample: a residue whose atom block has no CA record makes the
post-processing pass raise KeyError (Except.error) instead of keeping the block under
its original residue-number key. -/
theorem C7_counterexample :
    pdb_array_post ([(PKey.num 1, [(['N'], ['A', 'T', 'O', 'M'])])]) = Except.error () ∧
    pdb_array_post ([(PKey.num 1, [(['N'], ['A', 'T', 'O', 'M'])])]) ≠
      Except.ok ([(PKey.num 1, [(['N'], ['A', 'T', 'O', 'M'])])]) := by
  have h1 : pdb_array_post ([(PKey.num 1, [(['N'], ['A', 'T', 'O', 'M'])])]) =
      Except.error () := rfl
  refine ⟨h1, ?_⟩
  rw [h1]
  intro hcontra
  exact Except.noConfusion hcontra

/-- C7 (amended): when every residue block carries a CA record and the computed output
keys are distinct, the post-processing pass succeeds and maps each residue independently
to its computed key — so no residue's processing perturbs another's key — and every
residue whose CA line is empty or fails the generic-number pattern keeps its original
residue key unchanged. (A block with no CA record instead raises, see the
counterexample.) -/
theorem C7_amended_post (arr : List (PKey × Block))
    (hca : ∀ p ∈ arr, (odGet (['C', 'A']) p.2).isSome = true)
    (hnd : List.Nodup (arr.map (fun p => postKey p.1 p.2))) :
    pdb_array_post arr = Except.ok (arr.map (fun p => (postKey p.1 p.2, p.2))) ∧
    ∀ p ∈ arr, ∀ ca, odGet (['C', 'A']) p.2 = some ca →
      (caMatch ca = none ∨ ca.isEmpty = true) → postKey p.1 p.2 = p.1 := by
  constructor
  · have := postLoop_ok arr [] hca hnd (by simp)
    simpa [pdb_array_post] using this
  · intro p hp ca hc hbad
    unfold postKey
    rw [hc]
    rcases hbad with hm | he
    · simp [hm]
    · cases hm2 : caMatch ca with
      | none => simp [hm2]
      | some g8 => simp [hm2, he]

/-- A coordinate line whose CA record parses with generic-number fragment 4.50. -/
def caWitnessLine : List Char :=
  ['A', 'T', 'O', 'M', ' ', '1', ' ', 'C', 'A', ' ', 'A', 'R', 'G', ' ', 'A', ' ',
   '6', '.', '3', ' ', '1', '.', '0', '0', ' ', '4', '.', '5', '0', ' ', 'A']

/-- A two-residue first-pass array: residue 12 with a well-formed CA record, residue 13
with a CA record that fails the pattern. -/
def caWitnessArr : List (PKey × Block) :=
  [(PKey.num 12, [(['C', 'A'], caWitnessLine)]),
   (PKey.num 13, [(['C', 'A'], ['z'])])]

/-- Witness for C7 (amended): the malformed residue 13 keeps its original key while the
well-formed residue 12 is re-keyed to 4.50, each computed independently. -/
theorem C7_amended_post_witness :
    ((∀ p ∈ caWitnessArr, (odGet (['C', 'A']) p.2).isSome = true) ∧
      List.Nodup (caWitnessArr.map (fun p => postKey p.1 p.2))) ∧
    (pdb_array_post caWitnessArr =
        Except.ok (caWitnessArr.map (fun p => (postKey p.1 p.2, p.2))) ∧
      ∀ p ∈ caWitnessArr, ∀ ca, odGet (['C', 'A']) p.2 = some ca →
        (caMatch ca = none ∨ ca.isEmpty = true) → postKey p.1 p.2 = p.1) :=
  ⟨⟨by decide, by decide⟩, C7_amended_post caWitnessArr (by decide) (by decide)⟩

/-- insertDescBy inserts its element: the result is a permutation of consing it. -/
theorem insertDescBy_perm {α : Type} (score : α → Int) (a : α) :
    ∀ l : List α, List.Perm (insertDescBy score a l) (a :: l)
  | [] => List.Perm.refl _
  | b :: t => by
    unfold insertDescBy
    split_ifs with hab
    · exact ((insertDescBy_perm score a t).cons b).trans (List.Perm.swap a b t)
    · exact List.Perm.refl _

/-- pySortDesc permutes its input. -/
theorem pySortDesc_perm {α : Type} (score : α → Int) :
    ∀ l : List α, List.Perm (pySortDesc score l) l
  | [] => List.Perm.refl _
  | a :: t =>
    (insertDescBy_perm score a (pySortDesc score t)).trans ((pySortDesc_perm score t).cons a)

/-- insertDescBy preserves the non-increasing-by-score order. -/
theorem insertDescBy_pairwise {α : Type} (score : α → Int) (a : α) :
    ∀ l : List α, List.Pairwise (fun x y => score y ≤ score x) l →
      List.Pairwise (fun x y => score y ≤ score x) (insertDescBy score a l)
  | [], _ => by simp [insertDescBy]
  | b :: t, h => by
    unfold insertDescBy
    rcases List.pairwise_cons.mp h with ⟨hb, ht⟩
    split_ifs with hab
    · refine List.pairwise_cons.mpr ⟨?_, insertDescBy_pairwise score a t ht⟩
      intro x hx
      rcases List.mem_cons.mp ((insertDescBy_perm score a t).mem_iff.mp hx) with rfl | hxt
      · exact le_of_lt hab
      · exact hb x hxt
    · refine List.pairwise_cons.mpr ⟨?_, h⟩
      intro x hx
      rcases List.mem_cons.mp hx with rfl | hxt
      · exact not_lt.mp hab
      · exact le_trans (hb x hxt) (not_lt.mp hab)

/-- pySortDesc sorts non-increasingly by score. -/
theorem pySortDesc_pairwise {α : Type} (score : α → Int) :
    ∀ l : List α, List.Pairwise (fun x y => score y ≤ score x) (pySortDesc score l)
  | [] => List.Pairwise.nil
  | a :: t => insertDescBy_pairwise score a _ (pySortDesc_pairwise score t)

/-- Inserting an element of score s puts it before every other score-s element already
present (they all sit behind strictly greater scores it skips). -/
theorem insertDescBy_filter_eq {α : Type} (score : α → Int) (a : α) (s : Int)
    (hs : score a = s) :
    ∀ l : List α, (insertDescBy score a l).filter (fun x => score x == s) =
      a :: l.filter (fun x => score x == s)
  | [] => by simp [insertDescBy, hs]
  | b :: t => by
    unfold insertDescBy
    split_ifs with hab
    · have hbs : (score b == s) = false := by
        rw [beq_eq_false_iff_ne]
        intro hbe
        rw [hs, hbe] at hab
        exact lt_irrefl s hab
      simp only [List.filter_cons, hbs]
      rw [insertDescBy_filter_eq score a s hs t]
      simp
    · simp [List.filter_cons, hs]

/-- Inserting an element of a different score leaves the score-s sublist unchanged. -/
theorem insertDescBy_filter_ne {α : Type} (score : α → Int) (a : α) (s : Int)
    (hs : score a ≠ s) :
    ∀ l : List α, (insertDescBy score a l).filter (fun x => score x == s) =
      l.filter (fun x => score x == s)
  | [] => by simp [insertDescBy, hs]
  | b :: t => by
    unfold insertDescBy
    split_ifs with hab
    · simp only [List.filter_cons]
      rw [insertDescBy_filter_ne score a s hs t]
    · have has : (score a == s) = false := by rwa [beq_eq_false_iff_ne]
      simp [List.filter_cons, has]

/-- Stability of the descending sort: the elements of any fixed score keep their
original relative order. -/
theorem pySortDesc_filter {α : Type} (score : α → Int) (s : Int) :
    ∀ l : List α, (pySortDesc score l).filter (fun x => score x == s) =
      l.filter (fun x => score x == s)
  | [] => rfl
  | a :: t => by
    have hsort : pySortDesc score (a :: t) = insertDescBy score a (pySortDesc score t) := rfl
    by_cases hs : score a = s
    · rw [hsort, insertDescBy_filter_eq score a s hs (pySortDesc score t),
        pySortDesc_filter score s t]
      have has : (score a == s) = true := by rwa [beq_iff_eq]
      simp [List.filter_cons, has]
    · rw [hsort, insertDescBy_filter_ne score a s hs (pySortDesc score t),
        pySortDesc_filter score s t]
      have has : (score a == s) = false := by rwa [beq_eq_false_iff_ne]
      simp [List.filter_cons, has]

/-- Folding odSet over scored entries with distinct, fresh structure keys appends the
entries in order. -/
theorem foldl_odSet_table (structOf : Nat → Nat) :
    ∀ (l out : List (Nat × Int)),
      List.Nodup (l.map (fun q => structOf q.1)) →
      (∀ q ∈ l, structOf q.1 ∉ out.map Prod.fst) →
      l.foldl (fun d q => odSet d (structOf q.1) q.2) out =
        out ++ l.map (fun q => (structOf q.1, q.2))
  | [], out, _, _ => by simp
  | q :: rest, out, hnd, hfresh => by
    have hnd' : structOf q.1 ∉ rest.map (fun r => structOf r.1) ∧
        (rest.map (fun r => structOf r.1)).Nodup := by
      rw [List.map_cons, List.nodup_cons] at hnd
      exact hnd
    have hset : odSet out (structOf q.1) q.2 = out ++ [(structOf q.1, q.2)] :=
      odSet_append out _ _ (hfresh q (List.mem_cons_self _ _))
    have hrest := foldl_odSet_table structOf rest (out ++ [(structOf q.1, q.2)])
      hnd'.2
      (by
        intro r hr
        simp only [List.map_append, List.map_cons, List.map_nil, List.mem_append,
          List.mem_singleton]
        rintro (hin | heq)
        · exact hfresh r (List.mem_cons_of_mem _ hr) hin
        · exact hnd'.1 (by
            rw [← heq]
            exact List.mem_map_of_mem _ hr))
    simp only [List.foldl_cons]
    rw [hset, hrest]
    simp

/-- C8: the similarity table is ordered non-increasingly by integer similarity score,
and for every score the candidates carrying it appear in exactly the order their scores
were computed (stable tie-break), assuming the retained structures of distinct parents
are distinct (the per-parent dedup of the QuerySet). -/
theorem C8_table_sorted_stable (sims : List (Nat × Int)) (structOf : Nat → Nat)
    (hinj : List.Nodup (sims.map (fun q => structOf q.1))) :
    List.Pairwise (fun a b : Nat × Int => b.2 ≤ a.2)
      (create_ordered_similarity_table sims structOf) ∧
    ∀ s : Int,
      (create_ordered_similarity_table sims structOf).filter (fun q => q.2 == s) =
        (sims.filter (fun q => q.2 == s)).map (fun q => (structOf q.1, q.2)) := by
  have hperm : List.Perm (pySortDesc (fun q : Nat × Int => q.2) sims) sims :=
    pySortDesc_perm _ sims
  have hndsorted :
      List.Nodup ((pySortDesc (fun q : Nat × Int => q.2) sims).map (fun q => structOf q.1)) :=
    ((hperm.map (fun q => structOf q.1)).nodup_iff).mpr hinj
  have htable : create_ordered_similarity_table sims structOf =
      (pySortDesc (fun q : Nat × Int => q.2) sims).map (fun q => (structOf q.1, q.2)) := by
    unfold create_ordered_similarity_table
    rw [foldl_odSet_table structOf _ [] hndsorted (by simp)]
    simp
  constructor
  · rw [htable, List.pairwise_map]
    exact pySortDesc_pairwise (fun q : Nat × Int => q.2) sims
  · intro s
    rw [htable, List.filter_map]
    have hpred : ((fun q : Nat × Int => q.2 == s) ∘ (fun q : Nat × Int => (structOf q.1, q.2))) =
        (fun q : Nat × Int => q.2 == s) := rfl
    rw [hpred, pySortDesc_filter (fun q : Nat × Int => q.2) s sims]

/-- Witness for C8 on a scored list with a tie: scores 50, 70, 50 sort to 70, 50, 50
with the tied candidates in computation order. -/
theorem C8_table_sorted_stable_witness :
    List.Nodup (([(1, 50), (2, 70), (3, 50)] : List (Nat × Int)).map
      (fun q => (fun n : Nat => n + 100) q.1)) ∧
    (List.Pairwise (fun a b : Nat × Int => b.2 ≤ a.2)
        (create_ordered_similarity_table ([(1, 50), (2, 70), (3, 50)]) (fun n => n + 100)) ∧
      ∀ s : Int,
        (create_ordered_similarity_table ([(1, 50), (2, 70), (3, 50)])
            (fun n => n + 100)).filter (fun q => q.2 == s) =
          (([(1, 50), (2, 70), (3, 50)] : List (Nat × Int)).filter (fun q => q.2 == s)).map
            (fun q => ((fun n : Nat => n + 100) q.1, q.2))) :=
  ⟨by decide,
   C8_table_sorted_stable ([(1, 50), (2, 70), (3, 50)]) (fun n => n + 100) (by decide)⟩

end Protwis
